import Mathlib

/-!
Shallow embedding of the real-time block-update core of the pikimon-mcp-server
repository (src/index.js, src/services/websocket.js, src/services/monad.js),
together with theorems settling the specification claims about it.

Machine numbers (block numbers, timestamps, gas) are modelled as Nat: the
JavaScript code handles them as BigInt / decimal strings, which are exact and
non-negative, so no wrap-around modelling is needed.
-/

/-- A raw block as returned by `web3.eth.getBlock(n, true)`.  Fields that the
code guards with `||`/`?:` truthiness checks (`gasUsed`, `baseFeePerGas`,
`difficulty`, `totalDifficulty`) are `Option Nat`; `transactions` only matters
through its length. -/
structure RawBlock where
  number : Nat
  hash : String
  timestamp : Nat
  gasUsed : Option Nat
  miner : String
  baseFeePerGas : Option Nat
  difficulty : Option Nat
  totalDifficulty : Option Nat
  transactions : List String
  deriving Repr, DecidableEq

/-- The `blockInfo` object built by the SSE poll loop (src/index.js lines
137-146): all-numeric fields are converted with `.toString()`, and the three
optional fields fall back to the string `"0"`. -/
structure SseBlockData where
  number : String
  hash : String
  timestamp : String
  gasUsed : String
  miner : String
  baseFeePerGas : String
  difficulty : String
  totalDifficulty : String
  deriving Repr, DecidableEq

/-- Construction of `blockInfo` from the fetched block (src/index.js lines
137-146).  `(block.gasUsed || '0').toString()` yields `"0"` both when the field
is absent and when it is numerically zero, hence `getD 0`. -/
def mkSseBlockData (b : RawBlock) : SseBlockData :=
  { number := toString b.number
    hash := b.hash
    timestamp := toString b.timestamp
    gasUsed := toString (b.gasUsed.getD 0)
    miner := b.miner
    baseFeePerGas := toString (b.baseFeePerGas.getD 0)
    difficulty := toString (b.difficulty.getD 0)
    totalDifficulty := toString (b.totalDifficulty.getD 0) }

/-- An event written to every connected SSE client (`data: ...` frame).
The poll loop writes either a `newBlock` event (carrying `blockInfo` built by
`mkSseBlockData`) or an in-band `error` event. -/
inductive SseEvent where
  | newBlock (b : RawBlock)
  | errorEvent (message : String)
  deriving Repr, DecidableEq

/-- The numbers of the blocks announced in a list of SSE events (projection
used to state ordering/deduplication properties). -/
def blockNumbersOf (es : List SseEvent) : List Nat :=
  es.filterMap fun e =>
    match e with
    | .newBlock b => some b.number
    | .errorEvent _ => none

/-- Upstream interaction of one iteration of the SSE poll loop
(src/index.js lines 131-179):
  * `headErr`: `monadService.getLatestBlockNumber()` threw;
  * `head n bf`: the current head number is `n`; `bf` is consulted only when
    `n > lastBlock`: `none` means `web3.eth.getBlock` threw, `some none` means
    it returned null, `some (some b)` means it returned block `b`. -/
inductive PollInput where
  | headErr
  | head (n : Nat) (bf : Option (Option RawBlock))
  deriving Repr, DecidableEq

/-- Observable outcome of one iteration of the SSE poll loop:
the events written to every SSE client, the updated `lastBlock` and
`consecutiveErrors` module variables, the delay passed to `setTimeout(poll, _)`,
and whether `logger.error` ran (the catch branch). -/
structure PollOutput where
  sseWrites : List SseEvent
  lastBlock : Nat
  consecutiveErrors : Nat
  nextDelay : Nat
  errorLogged : Bool
  deriving Repr, DecidableEq

/-- src/index.js line 122: `POLLING_INTERVAL = 2000`. -/
def POLLING_INTERVAL : Nat := 2000

/-- src/index.js line 123: `ERROR_POLLING_INTERVAL = 5000`. -/
def ERROR_POLLING_INTERVAL : Nat := 5000

/-- src/index.js line 121: `MAX_CONSECUTIVE_ERRORS = 3`. -/
def MAX_CONSECUTIVE_ERRORS : Nat := 3

/-- One iteration of the SSE poll loop, src/index.js lines 131-179.
On success: if `currentBlock > lastBlock` (BigInt comparison) and the block
fetch returns a block, one `newBlock` event is written to every SSE client and
`lastBlock := currentBlock`; `consecutiveErrors` resets and the next poll is
scheduled after `POLLING_INTERVAL`.  Any throw inside the try block lands in
the catch: `consecutiveErrors` increments, an in-band error event is written
once the streak reaches `MAX_CONSECUTIVE_ERRORS`, `lastBlock` is untouched and
the next poll is scheduled after `ERROR_POLLING_INTERVAL`. -/
def pollStep (lastBlock consecutiveErrors : Nat) : PollInput → PollOutput
  | .headErr =>
    { sseWrites :=
        if consecutiveErrors + 1 ≥ MAX_CONSECUTIVE_ERRORS then
          [.errorEvent "Experiencing temporary issues with block updates"]
        else []
      lastBlock := lastBlock
      consecutiveErrors := consecutiveErrors + 1
      nextDelay := ERROR_POLLING_INTERVAL
      errorLogged := true }
  | .head n bf =>
    if lastBlock < n then
      match bf with
      | none =>
        { sseWrites :=
            if consecutiveErrors + 1 ≥ MAX_CONSECUTIVE_ERRORS then
              [.errorEvent "Experiencing temporary issues with block updates"]
            else []
          lastBlock := lastBlock
          consecutiveErrors := consecutiveErrors + 1
          nextDelay := ERROR_POLLING_INTERVAL
          errorLogged := true }
      | some none =>
        { sseWrites := []
          lastBlock := lastBlock
          consecutiveErrors := 0
          nextDelay := POLLING_INTERVAL
          errorLogged := false }
      | some (some b) =>
        { sseWrites := [.newBlock b]
          lastBlock := n
          consecutiveErrors := 0
          nextDelay := POLLING_INTERVAL
          errorLogged := false }
    else
      { sseWrites := []
        lastBlock := lastBlock
        consecutiveErrors := 0
        nextDelay := POLLING_INTERVAL
        errorLogged := false }

/-- Iterating the poll loop over a sequence of upstream observations,
collecting every event written to the SSE clients, in order. -/
def pollTrace (lastBlock consecutiveErrors : Nat) : List PollInput → List SseEvent
  | [] => []
  | i :: rest =>
    let o := pollStep lastBlock consecutiveErrors i
    o.sseWrites ++ pollTrace o.lastBlock o.consecutiveErrors rest

/-- Well-formedness of upstream data: when the provider reports head `n` and
the follow-up block fetch succeeds, the fetched block carries number `n`. -/
def PollInput.wf : PollInput → Prop
  | .head n (some (some b)) => b.number = n
  | _ => True

/-- Lexicographic order on character lists, as JavaScript compares strings with
the `<`/`>` operators (code-unit by code-unit). -/
def lexLt : List Char → List Char → Bool
  | [], [] => false
  | [], _ :: _ => true
  | _ :: _, [] => false
  | a :: as, b :: bs => if a = b then lexLt as bs else decide (a < b)

/-- JavaScript string comparison `a < b`. -/
def jsStrLt (a b : String) : Bool := lexLt a.data b.data

theorem lexLt_irrefl (l : List Char) : lexLt l l = false := by
  induction l with
  | nil => rfl
  | cons a as ih => simp [lexLt, ih]

theorem jsStrLt_irrefl (s : String) : jsStrLt s s = false := lexLt_irrefl s.data

/-- Upstream interaction of one tick of the polling fallback inside
`WebSocketService.startBlockHeaderSubscription` (src/services/websocket.js
lines 126-139), with the same reading as `PollInput`. -/
inductive WsPollInput where
  | headErr
  | head (n : Nat) (bf : Option (Option RawBlock))
  deriving Repr, DecidableEq

/-- Well-formedness of upstream data for the websocket polling fallback. -/
def WsPollInput.wf : WsPollInput → Prop
  | .head n (some (some b)) => b.number = n
  | _ => True

/-- One tick of the websocket polling fallback (src/services/websocket.js lines
126-139).  `monadService.getLatestBlockNumber()` returns a decimal *string*,
and the guard `currentBlock > lastBlock` compares those strings with
JavaScript's lexicographic string order — hence the `jsStrLt` on the decimal
representations.  Returns the blocks passed to `handleNewBlock` and the updated
`lastBlock`; any throw is caught and only logged. -/
def wsPollStep (lastBlock : Nat) : WsPollInput → List RawBlock × Nat
  | .headErr => ([], lastBlock)
  | .head n bf =>
    if jsStrLt (toString lastBlock) (toString n) then
      match bf with
      | some (some b) => ([b], n)
      | _ => ([], lastBlock)
    else ([], lastBlock)

/-- Iterating the websocket polling fallback, collecting every block handed to
`handleNewBlock` (and hence broadcast), in order. -/
def wsPollTrace (lastBlock : Nat) : List WsPollInput → List RawBlock
  | [] => []
  | i :: rest =>
    let o := wsPollStep lastBlock i
    o.1 ++ wsPollTrace o.2 rest

/-- Head numbers observed by the index.js poll loop in a run. -/
def pollHeads (inputs : List PollInput) : List Nat :=
  inputs.filterMap fun i =>
    match i with
    | .head n _ => some n
    | .headErr => none

/-- Head numbers observed by the websocket polling fallback in a run. -/
def wsPollHeads (inputs : List WsPollInput) : List Nat :=
  inputs.filterMap fun i =>
    match i with
    | .head n _ => some n
    | .headErr => none

/-- The `newBlockHeaders` push-subscription callback (src/services/websocket.js
lines 148-160): an errored push or an empty header is skipped (modelled as
`none`), every other pushed header is handed to `handleNewBlock` unconditionally
— there is no comparison against any last-seen head on this path. -/
def subscriptionBroadcasts (pushes : List (Option RawBlock)) : List RawBlock :=
  pushes.filterMap id

/-- The five-field `blockInfo` built by `WebSocketService.handleNewBlock`
(src/services/websocket.js lines 183-189). -/
structure WsBlockData where
  number : String
  hash : String
  timestamp : String
  gasUsed : String
  miner : String
  deriving Repr, DecidableEq

/-- `handleNewBlock`'s formatting of a block header (websocket.js lines
183-189). -/
def mkWsBlockData (b : RawBlock) : WsBlockData :=
  { number := toString b.number
    hash := b.hash
    timestamp := toString b.timestamp
    gasUsed := toString (b.gasUsed.getD 0)
    miner := b.miner }

/-- A connected WebSocket client as `broadcast` sees it: an identifier, whether
`readyState === WebSocket.OPEN`, and whether `client.send` throws for it. -/
structure WsClient where
  cid : Nat
  readyStateOpen : Bool
  sendFails : Bool
  deriving Repr, DecidableEq

/-- Outcome of `WebSocketService.broadcast` (src/services/websocket.js lines
229-244): which clients the message was delivered to, the client set after the
call, and the clients whose `send` threw (the catch branch only calls
`logger.error`). -/
structure BroadcastResult where
  deliveredTo : List Nat
  clientsAfter : List WsClient
  errorsLogged : List Nat
  deriving Repr, DecidableEq

/-- `WebSocketService.broadcast` (src/services/websocket.js lines 229-244):
`this.clients.forEach` sends to every client with `readyState === OPEN`; a
throwing `send` is caught and logged, and the iteration continues.  No branch
adds to or removes from `this.clients`. -/
def wsBroadcast : List WsClient → BroadcastResult
  | [] => { deliveredTo := [], clientsAfter := [], errorsLogged := [] }
  | c :: rest =>
    let r := wsBroadcast rest
    if c.readyStateOpen then
      if c.sendFails then
        { deliveredTo := r.deliveredTo
          clientsAfter := c :: r.clientsAfter
          errorsLogged := c.cid :: r.errorsLogged }
      else
        { deliveredTo := c.cid :: r.deliveredTo
          clientsAfter := c :: r.clientsAfter
          errorsLogged := r.errorsLogged }
    else
      { deliveredTo := r.deliveredTo
        clientsAfter := c :: r.clientsAfter
        errorsLogged := r.errorsLogged }

theorem blockNumbersOf_append (a b : List SseEvent) :
    blockNumbersOf (a ++ b) = blockNumbersOf a ++ blockNumbersOf b :=
  List.filterMap_append ..

/-- Each poll iteration either writes no block event and keeps `lastBlock`, or
it writes exactly one block event for a head strictly above `lastBlock` and
advances `lastBlock` to that head. -/
theorem pollStep_cases (last errs : Nat) (i : PollInput) :
    (blockNumbersOf (pollStep last errs i).sseWrites = [] ∧
      (pollStep last errs i).lastBlock = last) ∨
    (∃ n b, i = .head n (some (some b)) ∧ last < n ∧
      (pollStep last errs i).sseWrites = [.newBlock b] ∧
      (pollStep last errs i).lastBlock = n) := by
  match i with
  | .headErr =>
    left
    constructor
    · simp only [pollStep]
      split <;> simp [blockNumbersOf]
    · rfl
  | .head n bf =>
    by_cases h : last < n
    · match bf with
      | none =>
        left
        simp only [pollStep, if_pos h]
        constructor
        · split <;> simp [blockNumbersOf]
        · trivial
      | some none =>
        left
        simp [pollStep, if_pos h, blockNumbersOf]
      | some (some b) =>
        right
        exact ⟨n, b, rfl, h, by simp [pollStep, if_pos h], by simp [pollStep, if_pos h]⟩
    · left
      simp [pollStep, if_neg h, blockNumbersOf]

theorem pollTrace_cons (last errs : Nat) (i : PollInput) (rest : List PollInput) :
    pollTrace last errs (i :: rest) =
      (pollStep last errs i).sseWrites ++
        pollTrace (pollStep last errs i).lastBlock
          (pollStep last errs i).consecutiveErrors rest := rfl

/-- Over any run of the index.js poll loop with well-formed upstream data, the
announced block numbers are all strictly above the starting `lastBlock`, and
they are strictly increasing (hence duplicate-free). -/
theorem pollTrace_facts :
    ∀ (inputs : List PollInput) (last errs : Nat), (∀ i ∈ inputs, i.wf) →
      (∀ m ∈ blockNumbersOf (pollTrace last errs inputs), last < m) ∧
      List.Pairwise (· < ·) (blockNumbersOf (pollTrace last errs inputs)) := by
  intro inputs
  induction inputs with
  | nil => intro last errs _; simp [pollTrace, blockNumbersOf]
  | cons i rest ih =>
    intro last errs hwf
    have hwfr : ∀ j ∈ rest, j.wf := fun j hj => hwf j (List.mem_cons_of_mem _ hj)
    rcases pollStep_cases last errs i with ⟨hw, hl⟩ | ⟨n, b, hi, hlt, hw, hl⟩
    · rw [pollTrace_cons, blockNumbersOf_append, hw, hl, List.nil_append]
      exact ih last _ hwfr
    · have hbn : b.number = n := by
        have := hwf i (List.mem_cons_self i rest)
        rw [hi] at this
        exact this
      rw [pollTrace_cons, blockNumbersOf_append, hw, hl]
      have ihn := ih n ((pollStep last errs i).consecutiveErrors) hwfr
      have hnums : blockNumbersOf [SseEvent.newBlock b] = [n] := by
        simp [blockNumbersOf, hbn]
      rw [hnums, List.singleton_append]
      constructor
      · intro m hm
        rcases List.mem_cons.mp hm with h | h
        · exact h ▸ hlt
        · exact lt_trans hlt (ihn.1 m h)
      · exact List.pairwise_cons.mpr ⟨ihn.1, ihn.2⟩

theorem wsPollStep_cases (last : Nat) (i : WsPollInput) :
    ((wsPollStep last i).1 = [] ∧ (wsPollStep last i).2 = last) ∨
    (∃ n b, i = .head n (some (some b)) ∧
      jsStrLt (toString last) (toString n) = true ∧
      (wsPollStep last i).1 = [b] ∧ (wsPollStep last i).2 = n) := by
  match i with
  | .headErr => left; exact ⟨rfl, rfl⟩
  | .head n bf =>
    by_cases h : jsStrLt (toString last) (toString n) = true
    · match bf with
      | none => left; simp [wsPollStep, h]
      | some none => left; simp [wsPollStep, h]
      | some (some b) =>
        right
        exact ⟨n, b, rfl, h, by simp [wsPollStep, h], by simp [wsPollStep, h]⟩
    · left
      simp [wsPollStep, h]

theorem wsPollTrace_cons (last : Nat) (i : WsPollInput) (rest : List WsPollInput) :
    wsPollTrace last (i :: rest) =
      (wsPollStep last i).1 ++ wsPollTrace (wsPollStep last i).2 rest := rfl

/-- Over any run of the websocket polling fallback whose observed head numbers
are non-decreasing (and start at or above the baseline), the broadcast block
numbers are all strictly above the baseline and strictly increasing — the
lexicographic string guard can only over-suppress, never duplicate. -/
theorem wsPollTrace_facts :
    ∀ (inputs : List WsPollInput) (last : Nat), (∀ i ∈ inputs, i.wf) →
      List.Pairwise (· ≤ ·) (last :: wsPollHeads inputs) →
      (∀ m ∈ (wsPollTrace last inputs).map RawBlock.number, last < m) ∧
      List.Pairwise (· < ·) ((wsPollTrace last inputs).map RawBlock.number) := by
  intro inputs
  induction inputs with
  | nil => intro last _ _; simp [wsPollTrace]
  | cons i rest ih =>
    intro last hwf hpw
    have hwfr : ∀ j ∈ rest, j.wf := fun j hj => hwf j (List.mem_cons_of_mem _ hj)
    rcases wsPollStep_cases last i with ⟨hw, hl⟩ | ⟨n, b, hi, hguard, hw, hl⟩
    · rw [wsPollTrace_cons, hw, hl, List.nil_append]
      apply ih last hwfr
      match i with
      | .headErr =>
        simpa [wsPollHeads] using hpw
      | .head n bf =>
        simp only [wsPollHeads, List.filterMap_cons] at hpw ⊢
        rcases List.pairwise_cons.mp hpw with ⟨hle, hpw'⟩
        rcases List.pairwise_cons.mp hpw' with ⟨_, hpw''⟩
        exact List.pairwise_cons.mpr
          ⟨fun m hm => hle m (List.mem_cons_of_mem _ hm), hpw''⟩
    · subst hi
      have hbn : b.number = n := hwf _ (List.mem_cons_self _ rest)
      simp only [wsPollHeads, List.filterMap_cons] at hpw
      rcases List.pairwise_cons.mp hpw with ⟨hle, hpw'⟩
      have hlast_le : last ≤ n := hle n (List.mem_cons_self _ _)
      have hlast_lt : last < n := by
        rcases lt_or_eq_of_le hlast_le with h | h
        · exact h
        · exfalso
          rw [h, jsStrLt_irrefl] at hguard
          exact Bool.false_ne_true hguard
      rw [wsPollTrace_cons, hw, hl, List.singleton_append, List.map_cons, hbn]
      have ihn := ih n hwfr hpw'
      constructor
      · intro m hm
        rcases List.mem_cons.mp hm with h | h
        · exact h ▸ hlast_lt
        · exact lt_trans hlast_lt (ihn.1 m h)
      · exact List.pairwise_cons.mpr ⟨ihn.1, ihn.2⟩

instance : DecidablePred PollInput.wf := fun i =>
  match i with
  | .headErr => isTrue trivial
  | .head _ none => isTrue trivial
  | .head _ (some none) => isTrue trivial
  | .head n (some (some b)) => inferInstanceAs (Decidable (b.number = n))

instance : DecidablePred WsPollInput.wf := fun i =>
  match i with
  | .headErr => isTrue trivial
  | .head _ none => isTrue trivial
  | .head _ (some none) => isTrue trivial
  | .head n (some (some b)) => inferInstanceAs (Decidable (b.number = n))

/-- C1 (amended to the polling paths): for every non-decreasing (repeats
allowed) sequence of head numbers observed by the index.js SSE poll loop or by
the websocket polling fallback, the sequence of block events emitted to the
subscribers is strictly increasing and deduplicated, and every emitted number
is strictly above the starting `lastSeenHead` (events for a number at or below
it are suppressed).  The push-subscription path does not satisfy this — see the
counterexample. -/
theorem c1_polling_strictly_increasing
    (inputs : List PollInput) (wsInputs : List WsPollInput)
    (last errs lastW : Nat)
    (hwf : ∀ i ∈ inputs, i.wf)
    (_hmono : List.Chain' (· ≤ ·) (last :: pollHeads inputs))
    (hwfW : ∀ i ∈ wsInputs, i.wf)
    (hmonoW : List.Chain' (· ≤ ·) (lastW :: wsPollHeads wsInputs)) :
    (List.Pairwise (· < ·) (blockNumbersOf (pollTrace last errs inputs)) ∧
      ∀ m ∈ blockNumbersOf (pollTrace last errs inputs), last < m) ∧
    (List.Pairwise (· < ·) ((wsPollTrace lastW wsInputs).map RawBlock.number) ∧
      ∀ m ∈ (wsPollTrace lastW wsInputs).map RawBlock.number, lastW < m) := by
  have h1 := pollTrace_facts inputs last errs hwf
  have h2 := wsPollTrace_facts wsInputs lastW hwfW (List.chain'_iff_pairwise.mp hmonoW)
  exact ⟨⟨h1.2, h1.1⟩, ⟨h2.2, h2.1⟩⟩

/-- Demo block with number 101. -/
def blk101 : RawBlock := ⟨101, "0xa1", 1710000101, some 21000, "0xminerA", none, none, none, []⟩

/-- Demo block with number 103. -/
def blk103 : RawBlock := ⟨103, "0xa3", 1710000103, some 42000, "0xminerB", none, none, none, []⟩

/-- Demo block with number 12. -/
def blk12 : RawBlock := ⟨12, "0x0c", 1710000012, none, "0xminerC", none, none, none, []⟩

/-- A concrete non-decreasing poll observation sequence for the index.js loop. -/
def c1DemoInputs : List PollInput :=
  [.head 101 (some (some blk101)), .head 101 (some (some blk101)), .headErr,
   .head 103 (some (some blk103))]

/-- A concrete non-decreasing observation sequence for the websocket fallback. -/
def c1DemoWsInputs : List WsPollInput :=
  [.head 9 (some none), .head 12 (some (some blk12))]

theorem c1_polling_strictly_increasing_witness :
    (List.Pairwise (· < ·) (blockNumbersOf (pollTrace 100 0 c1DemoInputs)) ∧
      ∀ m ∈ blockNumbersOf (pollTrace 100 0 c1DemoInputs), 100 < m) ∧
    (List.Pairwise (· < ·) ((wsPollTrace 9 c1DemoWsInputs).map RawBlock.number) ∧
      ∀ m ∈ (wsPollTrace 9 c1DemoWsInputs).map RawBlock.number, 9 < m) :=
  c1_polling_strictly_increasing c1DemoInputs c1DemoWsInputs 100 0 9
    (by decide) (by simp [c1DemoInputs, pollHeads, List.chain'_cons])
    (by decide) (by simp [c1DemoWsInputs, wsPollHeads, List.chain'_cons])

/-- Demo block header with number 5, as pushed by a `newBlockHeaders`
subscription. -/
def hdr5 : RawBlock := ⟨5, "0x05", 1710000005, some 100, "0xminerD", none, none, none, []⟩

/-- C1 counterexample: delivering the non-decreasing head sequence 5, 5 through
the push-subscription path broadcasts block 5 twice — the repeated header
(whose number is not greater than the last seen head) is not suppressed, so the
emitted sequence is not strictly increasing, refuting the claim for the
subscription delivery mechanism. -/
theorem c1_subscription_not_deduplicated :
    (subscriptionBroadcasts [some hdr5, some hdr5]).map RawBlock.number = [5, 5] ∧
    List.Chain' (· ≤ ·) ((subscriptionBroadcasts [some hdr5, some hdr5]).map RawBlock.number) ∧
    ¬ List.Pairwise (· < ·)
        ((subscriptionBroadcasts [some hdr5, some hdr5]).map RawBlock.number) := by
  refine ⟨rfl, ?_, ?_⟩
  · show List.Chain' (· ≤ ·) [5, 5]
    simp [List.chain'_cons]
  · show ¬ List.Pairwise (· < ·) [5, 5]
    intro h
    exact absurd ((List.pairwise_cons.mp h).1 5 (List.mem_cons_self 5 []))
      (lt_irrefl 5)

/-- Per-process state of the Session Lifecycle: the sizes of the `sseClients`
and `mcpClients` sets (src/index.js lines 51 and 211), whether the block poll
timer is active (`blockPollingInterval !== null`), and how many *untracked*
`setTimeout(startBlockPolling, ERROR_POLLING_INTERVAL)` retries — scheduled by
the catch at src/index.js lines 183-186 — are pending.  Those retries are not
recorded in `blockPollingInterval`, so `stopBlockPolling` cannot cancel them. -/
structure LifecycleState where
  sseCount : Nat
  mcpCount : Nat
  polling : Bool
  pendingRetries : Nat
  deriving Repr, DecidableEq

/-- `startBlockPolling` (src/index.js lines 125-187): returns immediately when
a poll timer already exists.  Otherwise it fetches the baseline head (`ok` is
that fetch's outcome): on success the first `poll()` runs and installs the
timer; on a throw the catch (lines 183-186) schedules
`setTimeout(startBlockPolling, ERROR_POLLING_INTERVAL)` — an untracked retry,
with `blockPollingInterval` left null. -/
def startBlockPolling (ok : Bool) (s : LifecycleState) : LifecycleState :=
  if s.polling then s
  else if ok then { s with polling := true }
  else { s with pendingRetries := s.pendingRetries + 1 }

/-- `stopBlockPolling` (src/index.js lines 189-196): clears the poll timer if
one is installed.  Pending untracked retries are untouched — the function has
no handle on them. -/
def stopBlockPolling (s : LifecycleState) : LifecycleState :=
  { s with polling := false }

/-- Events driving the tracker lifecycle: connects and disconnects of the two
transports (a connect that triggers `startBlockPolling` carries the outcome of
its baseline head fetch), and the firing of a previously scheduled untracked
`startBlockPolling` retry (also carrying its baseline fetch outcome). -/
inductive ClientEvent where
  | sseConnect (baselineOk : Bool)
  | sseClose
  | mcpConnect (baselineOk : Bool)
  | mcpClose
  | retryFires (baselineOk : Bool)
  deriving Repr, DecidableEq

/-- The lifecycle handlers in src/index.js: an SSE connect adds to `sseClients`
and starts polling when that set reaches size 1 (lines 95-100); the SSE close
handler removes the client and stops polling when `sseClients` alone becomes
empty (lines 102-109), ignoring `mcpClients`.  The `/mcp-sse` handlers (lines
223, 295-297, 300-309) mirror this with the sets swapped.  A pending untracked
retry fires regardless of the subscriber counts and simply calls
`startBlockPolling` again (lines 183-186). -/
def lifecycleStep (s : LifecycleState) : ClientEvent → LifecycleState
  | .sseConnect ok =>
    let s' := { s with sseCount := s.sseCount + 1 }
    if s'.sseCount = 1 then startBlockPolling ok s' else s'
  | .sseClose =>
    let s' := { s with sseCount := s.sseCount - 1 }
    if s'.sseCount = 0 then stopBlockPolling s' else s'
  | .mcpConnect ok =>
    let s' := { s with mcpCount := s.mcpCount + 1 }
    if s'.mcpCount = 1 then startBlockPolling ok s' else s'
  | .mcpClose =>
    let s' := { s with mcpCount := s.mcpCount - 1 }
    if s'.mcpCount = 0 then stopBlockPolling s' else s'
  | .retryFires ok =>
    if 0 < s.pendingRetries then
      startBlockPolling ok { s with pendingRetries := s.pendingRetries - 1 }
    else s

/-- Server start state: no clients, no polling, no pending retries. -/
def initialLifecycle : LifecycleState := ⟨0, 0, false, 0⟩

/-- Folding the lifecycle handlers over a sequence of events. -/
def lifecycleRun (s : LifecycleState) (es : List ClientEvent) : LifecycleState :=
  es.foldl lifecycleStep s

/-- An event whose implicit baseline head fetch (if it performs one) succeeds.
Runs in which every event satisfies this never enter the catch at
src/index.js lines 183-186. -/
def ClientEvent.fetchOk : ClientEvent → Prop
  | .sseConnect ok => ok = true
  | .mcpConnect ok => ok = true
  | .retryFires ok => ok = true
  | .sseClose => True
  | .mcpClose => True

instance : DecidablePred ClientEvent.fetchOk := fun e =>
  match e with
  | .sseConnect ok => inferInstanceAs (Decidable (ok = true))
  | .mcpConnect ok => inferInstanceAs (Decidable (ok = true))
  | .retryFires ok => inferInstanceAs (Decidable (ok = true))
  | .sseClose => isTrue trivial
  | .mcpClose => isTrue trivial

theorem lifecycleStep_preserves (s : LifecycleState) (e : ClientEvent)
    (he : e.fetchOk)
    (h : s.pendingRetries = 0 ∧ (s.polling = true → 0 < s.sseCount + s.mcpCount)) :
    (lifecycleStep s e).pendingRetries = 0 ∧
      ((lifecycleStep s e).polling = true →
        0 < (lifecycleStep s e).sseCount + (lifecycleStep s e).mcpCount) := by
  obtain ⟨hp, hi⟩ := h
  cases e <;> simp only [ClientEvent.fetchOk] at he <;>
    simp only [lifecycleStep, startBlockPolling, stopBlockPolling] <;>
    (try subst he) <;>
    split <;> (try split) <;> simp_all <;> omega

theorem lifecycleRun_invariant (es : List ClientEvent) :
    ∀ s : LifecycleState, (∀ e ∈ es, e.fetchOk) →
      s.pendingRetries = 0 ∧ (s.polling = true → 0 < s.sseCount + s.mcpCount) →
      (lifecycleRun s es).pendingRetries = 0 ∧
        ((lifecycleRun s es).polling = true →
          0 < (lifecycleRun s es).sseCount + (lifecycleRun s es).mcpCount) := by
  induction es with
  | nil => intro s _ h; exact h
  | cons e rest ih =>
    intro s hok h
    exact ih (lifecycleStep s e)
      (fun e' he' => hok e' (List.mem_cons_of_mem _ he'))
      (lifecycleStep_preserves s e (hok e (List.mem_cons_self e rest)) h)

/-- C3 amended, both halves.  First: in any run in which every
`startBlockPolling` baseline head fetch succeeds (so the catch at
src/index.js lines 183-186 never runs), the tracker is inactive whenever the
combined subscriber count is zero.  Second: that restriction is necessary —
after a baseline fetch failure, the untracked 5-second retry the catch
schedules survives the last subscriber's disconnect and re-activates polling
with zero subscribers connected. -/
theorem c3_zero_subscribers_inactive_unless_orphan_retry (es : List ClientEvent)
    (hok : ∀ e ∈ es, e.fetchOk)
    (hzero : (lifecycleRun initialLifecycle es).sseCount
        + (lifecycleRun initialLifecycle es).mcpCount = 0) :
    (lifecycleRun initialLifecycle es).polling = false ∧
    ((lifecycleRun initialLifecycle
        [.sseConnect false, .sseClose, .retryFires true]).sseCount
      + (lifecycleRun initialLifecycle
        [.sseConnect false, .sseClose, .retryFires true]).mcpCount = 0 ∧
     (lifecycleRun initialLifecycle
        [.sseConnect false, .sseClose, .retryFires true]).polling = true) := by
  constructor
  · cases hb : (lifecycleRun initialLifecycle es).polling
    · rfl
    · have := (lifecycleRun_invariant es initialLifecycle hok
        (by simp [initialLifecycle])).2 hb
      omega
  · decide

theorem c3_zero_subscribers_inactive_unless_orphan_retry_witness :
    (lifecycleRun initialLifecycle [.sseConnect true, .sseClose]).polling = false ∧
    ((lifecycleRun initialLifecycle
        [.sseConnect false, .sseClose, .retryFires true]).sseCount
      + (lifecycleRun initialLifecycle
        [.sseConnect false, .sseClose, .retryFires true]).mcpCount = 0 ∧
     (lifecycleRun initialLifecycle
        [.sseConnect false, .sseClose, .retryFires true]).polling = true) :=
  c3_zero_subscribers_inactive_unless_orphan_retry
    [.sseConnect true, .sseClose] (by decide) (by decide)

/-- C3 counterexample: with one SSE and one MCP-SSE subscriber connected (all
baseline fetches succeeding), closing the SSE subscriber stops the tracker
even though one subscriber (of the other kind) is still connected — so the
tracker is not active iff the combined count is nonzero, and unsubscribing
stops it before the last subscriber across all kinds is gone. -/
theorem c3_stop_ignores_other_transport :
    (lifecycleRun initialLifecycle
        [.sseConnect true, .mcpConnect true, .sseClose]).sseCount
      + (lifecycleRun initialLifecycle
        [.sseConnect true, .mcpConnect true, .sseClose]).mcpCount = 1 ∧
    (lifecycleRun initialLifecycle
        [.sseConnect true, .mcpConnect true, .sseClose]).polling = false := by
  decide

/-- C4 amended: `broadcast` delivers the event to every open subscriber whose
`send` does not throw, catches (and only logs) each throwing `send` so the
error never propagates and the remaining subscribers still receive the event —
but the failing subscriber is *not* removed from the set by `broadcast`: the
client set after the call is exactly the set before it. -/
theorem c4_broadcast_isolates_but_keeps_subscriber (clients : List WsClient) :
    (wsBroadcast clients).clientsAfter = clients ∧
    (wsBroadcast clients).deliveredTo =
      (clients.filter fun c => c.readyStateOpen && !c.sendFails).map WsClient.cid ∧
    (wsBroadcast clients).errorsLogged =
      (clients.filter fun c => c.readyStateOpen && c.sendFails).map WsClient.cid := by
  induction clients with
  | nil => exact ⟨rfl, rfl, rfl⟩
  | cons c rest ih =>
    rcases ih with ⟨h1, h2, h3⟩
    by_cases ho : c.readyStateOpen <;> by_cases hf : c.sendFails <;>
      simp [wsBroadcast, List.filter_cons, ho, hf, h1, h2, h3]

/-- A subscriber whose `send` throws (simulated closed connection). -/
def failingClient : WsClient := ⟨0, true, true⟩

/-- A healthy subscriber. -/
def healthyClient : WsClient := ⟨1, true, false⟩

/-- C4 counterexample: broadcasting to a failing and a healthy subscriber
delivers to the healthy one and logs the failure, but the failing subscriber
is still in the subscriber set afterwards — it is not removed, contrary to the
claim. -/
theorem c4_failing_subscriber_not_removed :
    (wsBroadcast [failingClient, healthyClient]).deliveredTo = [1] ∧
    (wsBroadcast [failingClient, healthyClient]).errorsLogged = [0] ∧
    (wsBroadcast [failingClient, healthyClient]).clientsAfter
      = [failingClient, healthyClient] ∧
    failingClient ∈ (wsBroadcast [failingClient, healthyClient]).clientsAfter := by
  decide

/-- Events emitted on the `monadService` EventEmitter.  The `/mcp-sse` endpoint
subscribes handlers for exactly these two event names (src/index.js lines
291-292). -/
inductive MonadEvent where
  | newBlock (blockNumber : Nat)
  | greetingUpdated (greeting : String)
  deriving Repr, DecidableEq

/-- The events the SSE poll loop body (src/index.js lines 131-179) emits on the
`monadService` EventEmitter: the body contains no `emit` call at all — and no
other code in the repository emits a `newBlock` event on `monadService` either
— so this list is empty for every input. -/
def pollMonadEmits (_lastBlock _consecutiveErrors : Nat) (_i : PollInput) :
    List MonadEvent := []

/-- The `WebSocketService.broadcast` invocations the SSE poll loop body
triggers: the body writes only to `sseClients` and never calls into the
WebSocket service (and nothing else calls `startBlockHeaderSubscription` or
`setupEventListeners`), so this list is empty for every input. -/
def pollWsBroadcasts (_lastBlock _consecutiveErrors : Nat) (_i : PollInput) :
    List WsBlockData := []

/-- The `params.block` payload of an MCP-SSE `block/new` notification
(src/index.js lines 263-269). -/
structure McpBlockData where
  number : String
  hash : String
  timestamp : String
  transactions : Nat
  deriving Repr, DecidableEq

/-- An MCP-SSE JSON-RPC notification for a new block (src/index.js lines
259-271). -/
structure McpBlockMessage where
  jsonrpc : String
  method : String
  block : McpBlockData
  deriving Repr, DecidableEq

/-- Formatting of the `block/new` notification from a fetched block
(src/index.js lines 259-270). -/
def mkMcpBlockMessage (b : RawBlock) : McpBlockMessage :=
  { jsonrpc := "2.0"
    method := "block/new"
    block :=
      { number := toString b.number
        hash := b.hash
        timestamp := toString b.timestamp
        transactions := b.transactions.length } }

/-- `blockUpdateHandler` (src/index.js lines 255-276), registered per MCP-SSE
client for `monadService` `newBlock` events: fetches the block by number and
writes one `block/new` notification; a null block or a throw writes nothing. -/
def blockUpdateHandler (getBlock : Nat → Option (Option RawBlock))
    (blockNumber : Nat) : List McpBlockMessage :=
  match getBlock blockNumber with
  | some (some b) => [mkMcpBlockMessage b]
  | _ => []

/-- The `block/new` notifications one connected MCP-SSE client receives while
the poll loop processes input `i`: `blockUpdateHandler` runs once per
`newBlock` event emitted on `monadService` during the iteration. -/
def mcpDeliveriesOnPoll (getBlock : Nat → Option (Option RawBlock))
    (lastBlock consecutiveErrors : Nat) (i : PollInput) : List McpBlockMessage :=
  ((pollMonadEmits lastBlock consecutiveErrors i).map fun ev =>
    match ev with
    | .newBlock n => blockUpdateHandler getBlock n
    | .greetingUpdated _ => []).flatten

/-- C2 evaluated at the failing input (code bug): with subscribers of all three
kinds connected and the poll loop observing head 101 above baseline 100, each
SSE client gets exactly one `newBlock` event, but each MCP-SSE client receives
no `block/new` notification (nothing ever emits `newBlock` on `monadService`)
and no WebSocket broadcast happens (the WebSocket block pipeline is never
started and the poll body never calls it) — not "exactly one event per
subscriber" as claimed. -/
theorem c2_only_sse_receives_the_block :
    (pollStep 100 0 (.head 101 (some (some blk101)))).sseWrites
      = [.newBlock blk101] ∧
    mcpDeliveriesOnPoll (fun n => if n = 101 then some (some blk101) else none)
      100 0 (.head 101 (some (some blk101))) = [] ∧
    pollWsBroadcasts 100 0 (.head 101 (some (some blk101))) = [] := by
  decide

/-- src/services/monad.js line 26: `minRequestInterval = 1000`. -/
def minRequestInterval : Nat := 1000

/-- src/services/monad.js line 27: `maxRetries = 3`. -/
def maxRetries : Nat := 3

/-- src/services/monad.js line 28: `retryDelay = 2000`. -/
def retryDelay : Nat := 2000

/-- Result of one invocation of the wrapped operation: a success value or a
thrown error, identified by its message string. -/
inductive CallResult (α : Type) where
  | ok (v : α)
  | err (msg : String)
  deriving Repr, DecidableEq

/-- Whether a character list starts with the given pattern. -/
def leadsWith : List Char → List Char → Bool
  | [], _ => true
  | _ :: _, [] => false
  | a :: as, b :: bs => a = b && leadsWith as bs

/-- Substring test on character lists (JavaScript `String.prototype.includes`). -/
def hasSub (pat : List Char) : List Char → Bool
  | [] => leadsWith pat []
  | c :: rest => leadsWith pat (c :: rest) || hasSub pat rest

/-- The rate-limit-class test from src/services/monad.js line 405:
`error.message.includes('request limit reached')`. -/
def isRateLimitMsg (msg : String) : Bool :=
  hasSub "request limit reached".data msg.data

/-- Observable trace of `executeWithRetry`: the instants at which the wrapped
operation was invoked (`this.lastRequestTime` assignments), and the final
outcome — `none` is the `undefined` a zero-attempt loop would return. -/
structure RetryTrace (α : Type) where
  callTimes : List Nat
  result : Option (Except String α)
  deriving Repr

/-- The minimum-spacing wait at the top of each attempt (src/services/monad.js
lines 396-400): if less than `minRequestInterval` has passed since
`lastRequestTime`, sleep the difference. -/
def pacingWait (now last : Nat) : Nat :=
  if now - last < minRequestInterval then minRequestInterval - (now - last) else 0

/-- The attempt loop of `executeWithRetry` (src/services/monad.js lines
392-413), with an explicit clock: `now` is the current time, `last` the stored
`lastRequestTime`.  Each attempt waits out the pacing interval, records the
call instant, and invokes the operation (modelled as instantaneous, its outcome
a function of the attempt index).  A rate-limit-class error with attempts left
sleeps `retryDelay * attempt` and retries; any other error — or a rate-limit
error on the final attempt — is rethrown at once. -/
def executeWithRetryGo (op : Nat → CallResult α) (retries attempt now last : Nat) :
    RetryTrace α :=
  if attempt ≤ retries then
    let t := now + pacingWait now last
    match op attempt with
    | .ok v => ⟨[t], some (.ok v)⟩
    | .err msg =>
      if isRateLimitMsg msg = true then
        if _h : attempt < retries then
          let r := executeWithRetryGo op retries (attempt + 1)
            (t + retryDelay * attempt) t
          ⟨t :: r.callTimes, r.result⟩
        else ⟨[t], some (.error msg)⟩
      else ⟨[t], some (.error msg)⟩
  else ⟨[], none⟩
termination_by retries + 1 - attempt
decreasing_by omega

/-- `executeWithRetry(operation)` with the default `retries = this.maxRetries`
(src/services/monad.js line 392). -/
def executeWithRetry (op : Nat → CallResult α) (now last : Nat) : RetryTrace α :=
  executeWithRetryGo op maxRetries 1 now last

theorem executeWithRetryGo_ok (op : Nat → CallResult α) (retries attempt now last : Nat)
    (h : attempt ≤ retries) (v : α) (hop : op attempt = .ok v) :
    executeWithRetryGo op retries attempt now last =
      ⟨[now + pacingWait now last], some (.ok v)⟩ := by
  rw [executeWithRetryGo]
  simp [h, hop]

theorem executeWithRetryGo_retry (op : Nat → CallResult α) (retries attempt now last : Nat)
    (h : attempt < retries) (msg : String) (hop : op attempt = .err msg)
    (hrl : isRateLimitMsg msg = true) :
    executeWithRetryGo op retries attempt now last =
      ⟨(now + pacingWait now last) ::
        (executeWithRetryGo op retries (attempt + 1)
          (now + pacingWait now last + retryDelay * attempt)
          (now + pacingWait now last)).callTimes,
       (executeWithRetryGo op retries (attempt + 1)
          (now + pacingWait now last + retryDelay * attempt)
          (now + pacingWait now last)).result⟩ := by
  rw [executeWithRetryGo]
  simp [Nat.le_of_lt h, hop, hrl, h]

theorem executeWithRetryGo_fatal (op : Nat → CallResult α) (retries attempt now last : Nat)
    (h : attempt ≤ retries) (msg : String) (hop : op attempt = .err msg)
    (hrl : isRateLimitMsg msg = false) :
    executeWithRetryGo op retries attempt now last =
      ⟨[now + pacingWait now last], some (.error msg)⟩ := by
  rw [executeWithRetryGo]
  simp [h, hop, hrl]

theorem pacingWait_of_ge (t d : Nat) (h : minRequestInterval ≤ d) :
    pacingWait (t + d) t = 0 := by
  unfold pacingWait
  rw [Nat.add_sub_cancel_left]
  rw [if_neg (by omega)]

/-- C5: for an operation that fails with a rate-limit-class error on the first
two calls and succeeds on the third, `executeWithRetry` makes exactly 3 calls,
the delay before retry attempt k is `retryDelay * k` (2000ms, then 4000ms), all
consecutive calls are at least `minRequestInterval` (1000ms) apart, and the
result is the third call's success value. -/
theorem c5_retry_schedule {α : Type} (op : Nat → CallResult α) (v : α)
    (m1 m2 : String) (now last : Nat)
    (h1 : op 1 = .err m1) (hr1 : isRateLimitMsg m1 = true)
    (h2 : op 2 = .err m2) (hr2 : isRateLimitMsg m2 = true)
    (h3 : op 3 = .ok v) :
    executeWithRetry op now last =
      { callTimes := [now + pacingWait now last,
          now + pacingWait now last + retryDelay * 1,
          now + pacingWait now last + retryDelay * 1 + retryDelay * 2],
        result := some (.ok v) } ∧
    List.Chain' (fun a b => a + minRequestInterval ≤ b)
      (executeWithRetry op now last).callTimes := by
  have ep1 : pacingWait (now + pacingWait now last + retryDelay * 1)
      (now + pacingWait now last) = 0 :=
    pacingWait_of_ge _ _ (by norm_num [minRequestInterval, retryDelay])
  have ep2 : pacingWait (now + pacingWait now last + retryDelay * 1 + retryDelay * 2)
      (now + pacingWait now last + retryDelay * 1) = 0 :=
    pacingWait_of_ge _ _ (by norm_num [minRequestInterval, retryDelay])
  have e3 : executeWithRetryGo op maxRetries 3
      (now + pacingWait now last + retryDelay * 1 + retryDelay * 2)
      (now + pacingWait now last + retryDelay * 1) =
      ⟨[now + pacingWait now last + retryDelay * 1 + retryDelay * 2],
       some (.ok v)⟩ := by
    have h := executeWithRetryGo_ok op maxRetries 3
      (now + pacingWait now last + retryDelay * 1 + retryDelay * 2)
      (now + pacingWait now last + retryDelay * 1)
      (by norm_num [maxRetries]) v h3
    rw [ep2] at h
    simpa using h
  have e2 : executeWithRetryGo op maxRetries 2
      (now + pacingWait now last + retryDelay * 1) (now + pacingWait now last) =
      ⟨[now + pacingWait now last + retryDelay * 1,
        now + pacingWait now last + retryDelay * 1 + retryDelay * 2],
       some (.ok v)⟩ := by
    have h := executeWithRetryGo_retry op maxRetries 2
      (now + pacingWait now last + retryDelay * 1) (now + pacingWait now last)
      (by norm_num [maxRetries]) m2 h2 hr2
    rw [ep1] at h
    simp only [Nat.add_zero] at h
    rw [h, e3]
  have e1 : executeWithRetry op now last =
      { callTimes := [now + pacingWait now last,
          now + pacingWait now last + retryDelay * 1,
          now + pacingWait now last + retryDelay * 1 + retryDelay * 2],
        result := some (.ok v) } := by
    rw [executeWithRetry,
      executeWithRetryGo_retry op maxRetries 1 now last
        (by norm_num [maxRetries]) m1 h1 hr1, e2]
  refine ⟨e1, ?_⟩
  rw [e1]
  simp only [List.chain'_cons, List.chain'_singleton, and_true]
  constructor <;> simp [minRequestInterval, retryDelay]

/-- C6: an error that is not rate-limit-class is never retried:
`executeWithRetry` makes exactly one call and propagates that same error. -/
theorem c6_non_rate_limit_single_call {α : Type} (op : Nat → CallResult α)
    (msg : String) (now last : Nat)
    (hop : op 1 = .err msg) (hrl : isRateLimitMsg msg = false) :
    executeWithRetry op now last =
      { callTimes := [now + pacingWait now last], result := some (.error msg) } ∧
    (executeWithRetry op now last).callTimes.length = 1 := by
  have e := executeWithRetryGo_fatal op maxRetries 1 now last
    (by norm_num [maxRetries]) msg hop hrl
  constructor
  · rw [executeWithRetry, e]
  · rw [executeWithRetry, e]
    rfl

/-- An operation that hits the rate limit twice, then succeeds. -/
def c5DemoOp : Nat → CallResult Nat :=
  fun k => if k = 3 then .ok 42 else .err "Error: request limit reached"

theorem c5_retry_schedule_witness :
    executeWithRetry c5DemoOp 0 0 =
      { callTimes := [1000, 3000, 7000], result := some (.ok 42) } ∧
    List.Chain' (fun a b => a + minRequestInterval ≤ b)
      (executeWithRetry c5DemoOp 0 0).callTimes := by
  have h := c5_retry_schedule c5DemoOp 42
    "Error: request limit reached" "Error: request limit reached" 0 0
    rfl (by decide) rfl (by decide) rfl
  simpa [pacingWait, minRequestInterval, retryDelay] using h

/-- An operation that fails with a non-rate-limit error. -/
def c6DemoOp : Nat → CallResult Nat := fun _ => .err "connection refused"

theorem c6_non_rate_limit_single_call_witness :
    executeWithRetry c6DemoOp 0 0 =
      { callTimes := [1000], result := some (.error "connection refused") } ∧
    (executeWithRetry c6DemoOp 0 0).callTimes.length = 1 := by
  have h := c6_non_rate_limit_single_call c6DemoOp "connection refused" 0 0
    rfl (by decide)
  simpa [pacingWait, minRequestInterval] using h

/-- The block the provider returns when asked for head 102. -/
def blk102 : RawBlock :=
  ⟨102, "0xa2", 1710000102, some 30000, "0xminerE", none, none, none, []⟩

/-- C7: with baseline `lastBlock = 100`, observing head 102 (block 101 was
missed within one poll interval) emits exactly one event, for block 102; no
event for 101 is emitted; `lastBlock` becomes 102. -/
theorem c7_skip_ahead :
    (pollStep 100 0 (.head 102 (some (some blk102)))).sseWrites
      = [.newBlock blk102] ∧
    blockNumbersOf (pollStep 100 0 (.head 102 (some (some blk102)))).sseWrites
      = [102] ∧
    101 ∉ blockNumbersOf (pollStep 100 0 (.head 102 (some (some blk102)))).sseWrites ∧
    (pollStep 100 0 (.head 102 (some (some blk102)))).lastBlock = 102 := by
  decide

/-- A poll iteration whose upstream fetches all succeed (no throw): the head
read succeeds, and the block fetch — consulted only when the head advanced —
does not throw. -/
def PollInput.fetchOk (lastBlock : Nat) : PollInput → Prop
  | .headErr => False
  | .head n bf => lastBlock < n → bf ≠ none

/-- C8: a failed fetch inside the poll loop does not crash it (`pollStep` is
total): the error is logged, `lastBlock` is unchanged, and the next poll is
scheduled at the extended `ERROR_POLLING_INTERVAL` (5s); any following
iteration whose fetches succeed is rescheduled at the normal
`POLLING_INTERVAL` (2s). -/
theorem c8_error_keeps_state_and_backs_off (last errs errs2 : Nat)
    (i : PollInput) (hok : i.fetchOk last) :
    (pollStep last errs .headErr).lastBlock = last ∧
    (pollStep last errs .headErr).nextDelay = ERROR_POLLING_INTERVAL ∧
    (pollStep last errs .headErr).errorLogged = true ∧
    (pollStep last errs2 i).nextDelay = POLLING_INTERVAL ∧
    (pollStep last errs2 i).errorLogged = false := by
  refine ⟨rfl, rfl, rfl, ?_⟩
  match i with
  | .headErr => exact hok.elim
  | .head n bf =>
    by_cases h : last < n
    · match bf with
      | none => exact absurd rfl (hok h)
      | some none => simp [pollStep, h]
      | some (some b) => simp [pollStep, h]
    · simp [pollStep, h]

theorem c8_error_keeps_state_and_backs_off_witness :
    (pollStep 100 2 .headErr).lastBlock = 100 ∧
    (pollStep 100 2 .headErr).nextDelay = ERROR_POLLING_INTERVAL ∧
    (pollStep 100 2 .headErr).errorLogged = true ∧
    (pollStep 100 3 (.head 104 (some (some blk103)))).nextDelay = POLLING_INTERVAL ∧
    (pollStep 100 3 (.head 104 (some (some blk103)))).errorLogged = false :=
  c8_error_keeps_state_and_backs_off 100 2 3 (.head 104 (some (some blk103)))
    (fun _ => by simp)

/-- A cache slot as in the `this.cache` object of MonadService
(src/services/monad.js lines 34-45): a value (absent at startup), the capture
timestamp, and the fixed TTL. -/
structure CacheEntry (α : Type) where
  value : Option α
  timestamp : Nat
  ttl : Nat
  deriving Repr, DecidableEq

/-- Result of a cached read: the returned value, the cache slot afterwards, and
whether an upstream fetch was performed.  The returned value's type can differ
from the stored one (`getLatestBlockNumber` stores a number but returns its
decimal string). -/
structure GetResult (α β : Type) where
  value : α
  cache : CacheEntry β
  fetched : Bool
  deriving Repr, DecidableEq

/-- `getLatestBlockNumber` (src/services/monad.js lines 415-434).  The cache
guard is `this.cache.latestBlock.value && Date.now() - timestamp < ttl`: under
JavaScript truthiness a missing value *and* the number 0 fail the guard.  On a
hit the cached value's decimal string is returned without contacting upstream;
otherwise the block number is fetched (through `executeWithRetry`, modelled
here as returning `upstream`), stored with a fresh timestamp, and returned as a
decimal string. -/
def getLatestBlockNumber (cache : CacheEntry Nat) (now upstream : Nat) :
    GetResult String Nat :=
  match cache.value with
  | some v =>
    if v ≠ 0 ∧ now - cache.timestamp < cache.ttl then
      ⟨toString v, cache, false⟩
    else ⟨toString upstream, ⟨some upstream, now, cache.ttl⟩, true⟩
  | none => ⟨toString upstream, ⟨some upstream, now, cache.ttl⟩, true⟩

/-- `getData` (src/services/monad.js lines 436-455), the greeting read.  Same
guard shape: a cached empty string is falsy and fails it. -/
def getData (cache : CacheEntry String) (now : Nat) (upstream : String) :
    GetResult String String :=
  match cache.value with
  | some v =>
    if v ≠ "" ∧ now - cache.timestamp < cache.ttl then
      ⟨v, cache, false⟩
    else ⟨upstream, ⟨some upstream, now, cache.ttl⟩, true⟩
  | none => ⟨upstream, ⟨some upstream, now, cache.ttl⟩, true⟩

/-- C9 (amended): a get immediately after a put returns the cached value
without a fresh fetch as long as `now - capturedAt < ttl` *and the cached value
is truthy* (nonzero block number, nonempty greeting); once the TTL has elapsed
the entry is treated as absent and a fresh fetch is performed (which refreshes
the slot). -/
theorem c9_cache_hit_iff_fresh_and_truthy (v : Nat) (s : String)
    (t ttl now now2 upN : Nat) (upS : String)
    (hv : v ≠ 0) (hs : s ≠ "") (hfresh : now - t < ttl)
    (hstale : ¬ now2 - t < ttl) :
    getLatestBlockNumber ⟨some v, t, ttl⟩ now upN
      = ⟨toString v, ⟨some v, t, ttl⟩, false⟩ ∧
    getData ⟨some s, t, ttl⟩ now upS = ⟨s, ⟨some s, t, ttl⟩, false⟩ ∧
    getLatestBlockNumber ⟨some v, t, ttl⟩ now2 upN
      = ⟨toString upN, ⟨some upN, now2, ttl⟩, true⟩ ∧
    getData ⟨some s, t, ttl⟩ now2 upS = ⟨upS, ⟨some upS, now2, ttl⟩, true⟩ := by
  simp [getLatestBlockNumber, getData, hv, hs, hfresh, hstale]

theorem c9_cache_hit_iff_fresh_and_truthy_witness :
    getLatestBlockNumber ⟨some 5, 0, 2000⟩ 1000 9
      = ⟨toString 5, ⟨some 5, 0, 2000⟩, false⟩ ∧
    getData ⟨some "hello", 0, 2000⟩ 1000 "x"
      = ⟨"hello", ⟨some "hello", 0, 2000⟩, false⟩ ∧
    getLatestBlockNumber ⟨some 5, 0, 2000⟩ 3000 9
      = ⟨toString 9, ⟨some 9, 3000, 2000⟩, true⟩ ∧
    getData ⟨some "hello", 0, 2000⟩ 3000 "x"
      = ⟨"x", ⟨some "x", 3000, 2000⟩, true⟩ :=
  c9_cache_hit_iff_fresh_and_truthy 5 "hello" 0 2000 1000 3000 9 "x"
    (by decide) (by decide) (by decide) (by decide)

/-- C9 counterexample: block number 0 is put into the cache at time 100; a get
at time 101 — well inside the 2000ms TTL — performs a fresh upstream fetch and
returns the upstream value, not the cached one, because the guard also tests
the truthiness of the cached value. -/
theorem c9_falsy_value_refetched_within_ttl :
    (getLatestBlockNumber ⟨some 0, 100, 2000⟩ 101 7).fetched = true ∧
    101 - 100 < 2000 ∧
    (getLatestBlockNumber ⟨some 0, 100, 2000⟩ 101 7).value = "7" := by
  decide

/-- C10: a falsy cached value (empty-string greeting or zero block number) is
treated as absent even within the TTL: both reads perform a fresh upstream
fetch. -/
theorem c10_falsy_cache_treated_absent (t ttl now upN : Nat) (upS : String)
    (_hfresh : now - t < ttl) :
    (getLatestBlockNumber ⟨some 0, t, ttl⟩ now upN).fetched = true ∧
    (getData ⟨some "", t, ttl⟩ now upS).fetched = true := by
  simp [getLatestBlockNumber, getData]

theorem c10_falsy_cache_treated_absent_witness :
    (getLatestBlockNumber ⟨some 0, 0, 2000⟩ 10 7).fetched = true ∧
    (getData ⟨some "", 0, 2000⟩ 10 "hi").fetched = true :=
  c10_falsy_cache_treated_absent 0 2000 10 7 "hi" (by decide)
